import Mathlib

/-!
Verification of the dobermann ERC-20 collection engine against its
natural-language specification.

The development shallowly embeds the Go sources:
  * `collector.go` — `evmCollector.collect` (current per-account workflow,
    with amount resolution) and `PolygonCollector.Collect` (legacy variant);
  * the legacy `evmCollector.Collect` variant (unnamed part_003), whose
    funding gate differs;
  * `transactor/gas_tracker.go` — `evmTransactor.VerifyTx`,
    `getTransactionData`, and the helper string/byte conversions of
    `math/big` used by them (decimal `SetString`/`String`, `Bytes`,
    `common.LeftPadBytes`), plus a full executable Keccak-256.

External effects (chain RPC, oracle, signing) are modelled as environment
records carrying the outcome of each call the Go code makes, in program
order.  Go `error` values are `Except String` (the string is the message,
which the collector inspects), and a Go nil-pointer panic is a distinguished
`none` outcome.
-/

/-- Status is the closed outcome enumeration of collector.go
("fail" / "success" / "pending" / "skip"). -/
inductive Status
  | fail
  | success
  | pending
  | skip
deriving DecidableEq, Repr

/-- Receipt models `types.Receipt` as consumed by `VerifyTx`: only the
`Status` field (1 = success, anything else = reverted) is read. -/
structure Receipt where
  status : Nat
deriving DecidableEq, Repr

/-- CtxErr is what Go's `ctx.Err()` reports once a context is done:
`context.DeadlineExceeded` when its deadline elapsed, `context.Canceled`
when it was cancelled. -/
inductive CtxErr
  | deadlineExceeded
  | canceled
deriving DecidableEq, Repr

/-- VerifyErr enumerates the error results of `evmTransactor.VerifyTx`:
the guard errors ("context deadline not set", "tx is empty") and the
propagated `ctx.Err()`. -/
inductive VerifyErr
  | ctxDeadlineNotSet
  | txEmpty
  | ctxDone (e : CtxErr)
deriving DecidableEq, Repr

/-- VerifyCtx models the `context.Context` handed to `VerifyTx`:
whether a deadline is attached, how many 10-second ticker waits complete
before `ctx.Done()` is ready, and what `ctx.Err()` reports once done. -/
structure VerifyCtx where
  hasDeadline : Bool
  ticksUntilDone : Nat
  doneErr : CtxErr

/-- verifyTxLoop is the polling loop of `evmTransactor.VerifyTx`
(gas_tracker.go lines 248-267).  At iteration `i` it queries the receipt
(`receiptAt i`); a found receipt with status other than 1 returns
`(false, nil)`, a status-1 receipt returns `(true, nil)`; otherwise the
`select` either observes `ctx.Done()` (once `fuel` ticker waits have been
used up) and returns `(false, ctx.Err())`, or waits one tick and loops. -/
def verifyTxLoop (receiptAt : Nat → Option Receipt) (doneErr : CtxErr) :
    Nat → Nat → Except VerifyErr Bool
  | i, 0 =>
    match receiptAt i with
    | some r => if r.status ≠ 1 then .ok false else .ok true
    | none => .error (.ctxDone doneErr)
  | i, fuel + 1 =>
    match receiptAt i with
    | some r => if r.status ≠ 1 then .ok false else .ok true
    | none => verifyTxLoop receiptAt doneErr (i + 1) fuel

/-- verifyTx embeds `evmTransactor.VerifyTx` (gas_tracker.go lines
235-268): it requires the context to carry a deadline, rejects an empty
transaction hash, and then runs the 10-second polling loop. -/
def verifyTx (ctx : VerifyCtx) (txHash : String)
    (receiptAt : Nat → Option Receipt) : Except VerifyErr Bool :=
  if !ctx.hasDeadline then .error .ctxDeadlineNotSet
  else if txHash = "" then .error .txEmpty
  else verifyTxLoop receiptAt ctx.doneErr 0 ctx.ticksUntilDone

/-- natDigitsLEAux is a fuel-driven little-endian base-`b` digit
expansion; the fuel makes it structurally recursive so that the kernel
can evaluate it. -/
def natDigitsLEAux (b : Nat) : Nat → Nat → List Nat
  | _, 0 => []
  | n, fuel + 1 => if n = 0 then [] else n % b :: natDigitsLEAux b (n / b) fuel

/-- natDigitsLE gives the little-endian base-`b` digits of `n` (empty for
zero), agreeing with `Nat.digits` for bases of at least 2. -/
def natDigitsLE (b n : Nat) : List Nat :=
  natDigitsLEAux b n n

theorem natDigitsLEAux_eq_digits (b : Nat) (hb : 1 < b) :
    ∀ fuel n, n ≤ fuel → natDigitsLEAux b n fuel = Nat.digits b n := by
  intro fuel
  induction fuel with
  | zero =>
    intro n hn
    have : n = 0 := Nat.le_zero.mp hn
    simp [natDigitsLEAux, this]
  | succ f ih =>
    intro n hn
    by_cases h0 : n = 0
    · simp [natDigitsLEAux, h0]
    · have hpos : 0 < n := Nat.pos_of_ne_zero h0
      have hdiv : n / b < n := Nat.div_lt_self hpos hb
      have : n / b ≤ f := by omega
      rw [natDigitsLEAux, if_neg h0, ih _ this, Nat.digits_def' hb hpos]

theorem natDigitsLE_eq_digits (b n : Nat) (hb : 1 < b) :
    natDigitsLE b n = Nat.digits b n :=
  natDigitsLEAux_eq_digits b hb n n le_rfl

/-- digitChar maps a decimal digit to its ASCII character, as `math/big`
renders decimal strings. -/
def digitChar (d : Nat) : Char := Char.ofNat (48 + d)

/-- natDecChars gives the decimal character rendering of a natural number
(most significant digit first; "0" for zero), modelling the digits of
`big.Int.String` for non-negative values. -/
def natDecChars (n : Nat) : List Char :=
  if n = 0 then ['0'] else ((natDigitsLE 10 n).map digitChar).reverse

/-- bigIntString models `big.Int.String`: base-10 rendering with a "-"
sign for negative values. -/
def bigIntString (i : Int) : String :=
  if i < 0 then ⟨'-' :: natDecChars i.natAbs⟩ else ⟨natDecChars i.natAbs⟩

/-- isDecDigit checks for an ASCII decimal digit, as `math/big`'s scanner
does when parsing base-10. -/
def isDecDigit (c : Char) : Bool :=
  48 ≤ c.toNat && c.toNat ≤ 57

/-- parseDecDigits? parses a non-empty all-digit character list into a
natural number; any other list is a parse failure, matching the base-10
scanning of `big.Int.SetString` after the optional sign. -/
def parseDecDigits? (l : List Char) : Option Nat :=
  if !l.isEmpty && l.all isDecDigit then
    some (l.foldl (fun a c => 10 * a + (c.toNat - 48)) 0)
  else none

/-- goBigIntSetString? models `big.Int.SetString(s, 10)`: an optional
leading sign followed by at least one decimal digit consuming the whole
string; `none` is the `ok = false` outcome. -/
def goBigIntSetString? (s : String) : Option Int :=
  match s.data with
  | [] => none
  | c :: rest =>
    if c = '-' then
      match parseDecDigits? rest with
      | none => none
      | some n => some (-(n : Int))
    else if c = '+' then
      match parseDecDigits? rest with
      | none => none
      | some n => some ((n : Int))
    else
      match parseDecDigits? (c :: rest) with
      | none => none
      | some n => some ((n : Int))

theorem foldr_mul_add_eq_ofDigits (b : Nat) (l : List Nat) :
    l.foldr (fun d a => b * a + d) 0 = Nat.ofDigits b l := by
  induction l with
  | nil => simp [Nat.ofDigits_nil]
  | cons d t ih =>
    simp only [List.foldr_cons, ih, Nat.ofDigits_cons]
    omega

theorem digitChar_toNat (d : Nat) (h : d < 10) : (digitChar d).toNat = 48 + d := by
  interval_cases d <;> decide

theorem isDecDigit_digitChar (d : Nat) (h : d < 10) : isDecDigit (digitChar d) = true := by
  simp only [isDecDigit, digitChar_toNat d h, Bool.and_eq_true, decide_eq_true_eq]
  omega

theorem foldr_map_digitChar (L : List Nat) (h : ∀ d ∈ L, d < 10) :
    (L.map digitChar).foldr (fun c a => 10 * a + (c.toNat - 48)) 0 =
      L.foldr (fun d a => 10 * a + d) 0 := by
  induction L with
  | nil => rfl
  | cons d t ih =>
    have hd : d < 10 := h d (List.mem_cons_self d t)
    have ht : ∀ x ∈ t, x < 10 := fun x hx => h x (List.mem_cons_of_mem d hx)
    simp only [List.map_cons, List.foldr_cons, ih ht, digitChar_toNat d hd]
    omega

theorem parse_natDecChars (n : Nat) : parseDecDigits? (natDecChars n) = some n := by
  by_cases h0 : n = 0
  · subst h0
    decide
  · have hL : natDigitsLE 10 n = Nat.digits 10 n := natDigitsLE_eq_digits 10 n (by norm_num)
    have hlt : ∀ d ∈ Nat.digits 10 n, d < 10 :=
      fun d hd => Nat.digits_lt_base (by norm_num) hd
    have hne : Nat.digits 10 n ≠ [] := Nat.digits_ne_nil_iff_ne_zero.mpr h0
    rw [natDecChars, if_neg h0, hL, parseDecDigits?]
    have hempty : ((Nat.digits 10 n).map digitChar).reverse.isEmpty = false := by
      rw [List.isEmpty_eq_false_iff_exists_mem]
      obtain ⟨d, hd⟩ := List.exists_mem_of_ne_nil _ hne
      exact ⟨digitChar d, by simp [List.mem_reverse, List.mem_map]; exact ⟨d, hd, rfl⟩⟩
    have hall : ((Nat.digits 10 n).map digitChar).reverse.all isDecDigit = true := by
      rw [List.all_eq_true]
      intro c hc
      rw [List.mem_reverse, List.mem_map] at hc
      obtain ⟨d, hd, rfl⟩ := hc
      exact isDecDigit_digitChar d (hlt d hd)
    rw [hempty, hall]
    simp only [Bool.not_false, Bool.true_and, if_pos]
    congr 1
    rw [List.foldl_reverse, foldr_map_digitChar _ hlt, foldr_mul_add_eq_ofDigits,
      Nat.ofDigits_digits]

theorem natDecChars_ne_nil (n : Nat) : natDecChars n ≠ [] := by
  by_cases h0 : n = 0
  · simp [natDecChars, h0]
  · have hL : natDigitsLE 10 n = Nat.digits 10 n := natDigitsLE_eq_digits 10 n (by norm_num)
    have hne : Nat.digits 10 n ≠ [] := Nat.digits_ne_nil_iff_ne_zero.mpr h0
    simp [natDecChars, h0, hL, hne]

theorem natDecChars_head_digit (n : Nat) (c : Char) (cs : List Char)
    (h : natDecChars n = c :: cs) : isDecDigit c = true := by
  have hc : c ∈ natDecChars n := by
    rw [h]
    exact List.mem_cons_self c cs
  by_cases h0 : n = 0
  · rw [natDecChars, if_pos h0] at hc
    simp only [List.mem_singleton] at hc
    subst hc
    decide
  · have hL : natDigitsLE 10 n = Nat.digits 10 n := natDigitsLE_eq_digits 10 n (by norm_num)
    rw [natDecChars, if_neg h0, hL, List.mem_reverse, List.mem_map] at hc
    obtain ⟨d, hd, rfl⟩ := hc
    exact isDecDigit_digitChar d (Nat.digits_lt_base (by norm_num) hd)

theorem goBigIntSetString_bigIntString (i : Int) :
    goBigIntSetString? (bigIntString i) = some i := by
  by_cases hneg : i < 0
  · rw [bigIntString, if_pos hneg]
    show goBigIntSetString? ⟨'-' :: natDecChars i.natAbs⟩ = some i
    simp only [goBigIntSetString?, if_pos, parse_natDecChars]
    congr 1
    have : (i.natAbs : Int) = -i := by omega
    rw [this, neg_neg]
  · rw [bigIntString, if_neg hneg]
    obtain ⟨c, cs, hc⟩ : ∃ c cs, natDecChars i.natAbs = c :: cs := by
      cases h : natDecChars i.natAbs with
      | nil => exact absurd h (natDecChars_ne_nil _)
      | cons c cs => exact ⟨c, cs, rfl⟩
    have hdig : isDecDigit c = true := natDecChars_head_digit _ _ _ hc
    have hcm : c ≠ '-' := by
      intro h
      subst h
      simp [isDecDigit] at hdig
    have hcp : c ≠ '+' := by
      intro h
      subst h
      simp [isDecDigit] at hdig
    show goBigIntSetString? ⟨natDecChars i.natAbs⟩ = some i
    rw [hc, goBigIntSetString?]
    simp only [if_neg hcm, if_neg hcp, ← hc, parse_natDecChars]
    congr 1
    omega

/-- rotl64 is 64-bit left rotation on `Nat` values below `2 ^ 64`. -/
def rotl64 (x n : Nat) : Nat :=
  ((x <<< n) ||| (x >>> (64 - n))) % (2 ^ 64)

/-- keccakRC lists the 24 round constants of Keccak-f[1600]. -/
def keccakRC : List Nat :=
  [1, 32898, 9223372036854808714, 9223372039002292224, 32907, 2147483649,
   9223372039002292353, 9223372036854808585, 138, 136, 2147516425, 2147483658,
   2147516555, 9223372036854775947, 9223372036854808713, 9223372036854808579,
   9223372036854808578, 9223372036854775936, 32778, 9223372039002259466,
   9223372039002292353, 9223372036854808704, 2147483649, 9223372039002292232]

/-- keccakRho lists the rotation offsets of the ρ step, indexed by lane
position `x + 5 * y`. -/
def keccakRho : List Nat :=
  [0, 1, 62, 28, 27] ++ [36, 44, 6, 55, 20] ++ [3, 10, 43, 25, 39] ++
    [41, 45, 15, 21, 8] ++ [18, 2, 61, 56, 14]

/-- lget reads lane `i` of a Keccak state. -/
def lget (s : List Nat) (i : Nat) : Nat := s.getD i 0

/-- keccakTheta is the θ step of Keccak-f[1600]. -/
def keccakTheta (s : List Nat) : List Nat :=
  let C := (List.range 5).map fun x =>
    lget s x ^^^ lget s (x + 5) ^^^ lget s (x + 10) ^^^ lget s (x + 15) ^^^ lget s (x + 20)
  let D := (List.range 5).map fun x =>
    lget C ((x + 4) % 5) ^^^ rotl64 (lget C ((x + 1) % 5)) 1
  (List.range 25).map fun i => lget s i ^^^ lget D (i % 5)

/-- keccakRhoPi combines the ρ and π steps of Keccak-f[1600]. -/
def keccakRhoPi (s : List Nat) : List Nat :=
  (List.range 25).map fun i =>
    let x := i % 5
    let y := i / 5
    let src := (x + 3 * y) % 5 + 5 * x
    rotl64 (lget s src) (lget keccakRho src)

/-- keccakChi is the χ step of Keccak-f[1600]. -/
def keccakChi (s : List Nat) : List Nat :=
  (List.range 25).map fun i =>
    let x := i % 5
    let y := i / 5
    lget s i ^^^ ((lget s ((x + 1) % 5 + 5 * y) ^^^ (2 ^ 64 - 1)) &&&
      lget s ((x + 2) % 5 + 5 * y))

/-- keccakIota is the ι step of Keccak-f[1600]. -/
def keccakIota (rc : Nat) (s : List Nat) : List Nat :=
  s.set 0 (lget s 0 ^^^ rc)

/-- keccakF is the full 24-round Keccak-f[1600] permutation on a state of
25 64-bit lanes. -/
def keccakF (s : List Nat) : List Nat :=
  keccakRC.foldl (fun st rc => keccakIota rc (keccakChi (keccakRhoPi (keccakTheta st)))) s

/-- bytesToLane folds up to eight bytes little-endian into one 64-bit lane. -/
def bytesToLane (bytes : List Nat) : Nat :=
  bytes.foldr (fun b acc => b + 256 * acc) 0

/-- absorbBlock xors one 136-byte rate block into the first 17 lanes of
the state. -/
def absorbBlock (s : List Nat) (block : List Nat) : List Nat :=
  (List.range 25).map fun i =>
    if i < 17 then lget s i ^^^ bytesToLane ((block.drop (8 * i)).take 8) else lget s i

/-- keccakPad appends the legacy Keccak multi-rate padding (domain byte
0x01, final byte 0x80) used by `sha3.NewLegacyKeccak256`. -/
def keccakPad (msg : List Nat) : List Nat :=
  let r := 136 - msg.length % 136
  msg ++ (if r = 1 then [0x81] else 0x01 :: (List.replicate (r - 2) 0 ++ [0x80]))

/-- laneBytes serialises one 64-bit lane to its eight little-endian bytes. -/
def laneBytes (lane : Nat) : List Nat :=
  (List.range 8).map fun j => (lane >>> (8 * j)) % 256

/-- keccak256 is the legacy Keccak-256 hash (as in
`sha3.NewLegacyKeccak256`): pad to the 136-byte rate, absorb each block
through Keccak-f[1600], and squeeze the first 32 bytes. -/
def keccak256 (msg : List Nat) : List Nat :=
  let padded := keccakPad msg
  let final := (List.range (padded.length / 136)).foldl
    (fun st bi => keccakF (absorbBlock st ((padded.drop (136 * bi)).take 136)))
    (List.replicate 25 0)
  ((List.range 4).map fun i => laneBytes (lget final i)).flatten

/-- transferFnSignature is the ASCII byte string
"transfer(address,uint256)" hashed to derive the ERC-20 selector. -/
def transferFnSignature : List Nat :=
  "transfer(address,uint256)".data.map Char.toNat


set_option maxRecDepth 10000 in
theorem keccak_selector : (keccak256 transferFnSignature).take 4 = [0xa9, 0x05, 0x9c, 0xbb] := by
  rfl

/-- leftPadBytes embeds `common.LeftPadBytes`: pad a byte slice on the
left with zeros up to length `l`, returning the slice unchanged when it
is already at least that long. -/
def leftPadBytes (slice : List Nat) (l : Nat) : List Nat :=
  if l ≤ slice.length then slice
  else List.replicate (l - slice.length) 0 ++ slice

/-- bigIntBytes embeds `big.Int.Bytes`: the minimal big-endian byte
representation of the absolute value (empty for zero). -/
def bigIntBytes (n : Nat) : List Nat :=
  (natDigitsLE 256 n).reverse

/-- beBytesToNat reads a big-endian byte list back into a natural number;
it is the decoding half of the ABI round trip. -/
def beBytesToNat (l : List Nat) : Nat :=
  l.foldl (fun a b => 256 * a + b) 0

/-- getTransactionData embeds `getTransactionData` (gas_tracker.go lines
311-329 and transactor.go lines 279-297): Keccak-256 selector of
"transfer(address,uint256)", 32-byte left-padded recipient address,
32-byte left-padded big-endian amount.  The amount string is parsed with
`big.Int.SetString` whose failure is ignored (the amount then stays 0);
a negative amount contributes its absolute bytes, as `big.Int.Bytes`
does. -/
def getTransactionData (toAddress : List Nat) (amountWei : String) : List Nat :=
  let methodID := (keccak256 transferFnSignature).take 4
  let paddedAddress := leftPadBytes toAddress 32
  let amount : Int :=
    match goBigIntSetString? amountWei with
    | some a => a
    | none => 0
  let paddedAmount := leftPadBytes (bigIntBytes amount.natAbs) 32
  methodID ++ paddedAddress ++ paddedAmount

/-- int64OfUInt64 reinterprets a `uint64` value as Go's `int64(...)`
conversion does (two's complement). -/
def int64OfUInt64 (n : Nat) : Int :=
  if n < 2 ^ 63 then (n : Int) else (n : Int) - 2 ^ 64

/-- nonceTooLow is the broadcast error message classified as `Skip`. -/
def nonceTooLow : String := "nonce too low"

/-- alreadyKnown is a broadcast error message classified as `Pending`. -/
def alreadyKnown : String := "already known"

/-- replacementTransactionUnderpriced is a broadcast error message
classified as `Pending`. -/
def replacementTransactionUnderpriced : String := "replacement transaction underpriced"

/-- classifyBroadcastError is the `switch err.Error()` of
`evmCollector.collect` (collector.go lines 450-462). -/
def classifyBroadcastError (msg : String) : Status :=
  if msg = nonceTooLow then .skip
  else if msg = alreadyKnown then .pending
  else if msg = replacementTransactionUnderpriced then .pending
  else .fail

/-- SourceAccount carries the per-account inputs the collect workflow
reads: the token contract address and the optional fixed amount. -/
structure SourceAccount where
  token : String
  amount : String

/-- CollectEnv records the outcome of every external call one run of
`evmCollector.collect` can make, in program order: token balance query,
gas quote, ERC-20 transaction build (only its gas limit is read), native
balance query, funding build/broadcast/receipt polling, and token
broadcast/receipt polling.  Errors carry the Go error message. -/
structure CollectEnv where
  tokenBalance : Except String Int
  gasCaps : Except String (Int × Int)
  erc20Gas : Except String Nat
  nativeBalance : Except String Int
  fundCreate : Except String Unit
  fundTransfer : Except String Unit
  fundTxHash : String
  fundTicks : Nat
  fundDoneErr : CtxErr
  fundReceiptAt : Nat → Option Receipt
  erc20Transfer : Except String Unit
  erc20TxHash : String
  erc20Ticks : Nat
  erc20DoneErr : CtxErr
  erc20ReceiptAt : Nat → Option Receipt

/-- Effects traces the externally visible actions of one collect run:
whether the gas oracle was queried, the amount string handed to
`CreateERC20Tx` (once it is called), whether `CreateTx` was called for
funding, the value of the funding transaction handed to `Transfer`
(once it is broadcast), and whether the ERC-20 transfer was handed to
`Transfer`. -/
structure Effects where
  gasQuoted : Bool
  erc20AmountParam : Option String
  fundingBuilt : Bool
  fundingBroadcast : Option Int
  tokenBroadcast : Bool
deriving DecidableEq, Repr

/-- noEffects is the empty effect trace. -/
def noEffects : Effects := ⟨false, none, false, none, false⟩

/-- Outcome pairs the per-account `Result` status with the traced
effects; a `none` status is a Go runtime panic (the run produces no
`Result` at all). -/
structure Outcome where
  status : Option Status
  effects : Effects

/-- AmountRes is the result of the amount-resolution block of
`evmCollector.collect` (collector.go lines 384-392): `nilPanic` models
`tokenBalance.Cmp(nil)` after an ignored failed parse, `insufficient`
the "insufficient balance" error, and `amount` the resolved amount
string. -/
inductive AmountRes
  | nilPanic
  | insufficient
  | amount (s : String)

/-- resolveAmount embeds the amount-resolution block of
`evmCollector.collect`: a non-empty configured amount is parsed with the
`ok` flag discarded and compared against the token balance; an empty one
defaults to the whole balance rendered with `big.Int.String`. -/
def resolveAmount (tokenBalance : Int) (accountAmount : String) : AmountRes :=
  if accountAmount ≠ "" then
    match goBigIntSetString? accountAmount with
    | none => .nilPanic
    | some a => if tokenBalance < a then .insufficient else .amount accountAmount
  else .amount (bigIntString tokenBalance)

/-- FundOut is the outcome of the conditional funding block: whether the
workflow proceeds to the token broadcast, whether `CreateTx` was called,
and the broadcast funding value if `Transfer` was called. -/
structure FundOut where
  proceed : Bool
  built : Bool
  broadcast : Option Int

/-- fundingAttempt embeds the funding block shared by all collector
variants (collector.go lines 420-446): build a native transaction for
`remainingFee.String()` (re-parsed by `CreateTx`), broadcast it, and
poll its receipt under a two-minute deadline; any error or a not-mined
verdict stops the workflow with `Fail`. -/
def fundingAttempt (env : CollectEnv) (remainingFee : Int) : FundOut :=
  match env.fundCreate with
  | .error _ => ⟨false, true, none⟩
  | .ok _ =>
    let v : Int :=
      match goBigIntSetString? (bigIntString remainingFee) with
      | some a => a
      | none => 0
    match env.fundTransfer with
    | .error _ => ⟨false, true, some v⟩
    | .ok _ =>
      match verifyTx ⟨true, env.fundTicks, env.fundDoneErr⟩ env.fundTxHash
          env.fundReceiptAt with
      | .error _ => ⟨false, true, some v⟩
      | .ok false => ⟨false, true, some v⟩
      | .ok true => ⟨true, true, some v⟩

/-- fundingStep adds the funding gate of `evmCollector.collect`
(collector.go line 419): the funding transaction is attempted exactly
when the remaining fee is strictly positive. -/
def fundingStep (env : CollectEnv) (remainingFee : Int) : FundOut :=
  if remainingFee > 0 then fundingAttempt env remainingFee
  else ⟨true, false, none⟩

/-- tokenStep embeds the token broadcast and confirmation of
`evmCollector.collect` (collector.go lines 450-475): a broadcast error
is classified by exact message match; a verification error is `Fail`; a
not-mined verdict is `Pending`; a mined one is `Success`. -/
def tokenStep (env : CollectEnv) : Status :=
  match env.erc20Transfer with
  | .error msg => classifyBroadcastError msg
  | .ok _ =>
    match verifyTx ⟨true, env.erc20Ticks, env.erc20DoneErr⟩ env.erc20TxHash
        env.erc20ReceiptAt with
    | .error _ => .fail
    | .ok false => .pending
    | .ok true => .success

/-- collect embeds `evmCollector.collect` (collector.go lines 374-476):
token balance check, zero-balance skip, amount resolution, gas quote,
ERC-20 build, fee estimate with Go's `int64(gas)` conversion, native
balance, conditional funding, token broadcast and confirmation. -/
def collect (env : CollectEnv) (account : SourceAccount) : Outcome :=
  match env.tokenBalance with
  | .error _ => ⟨some .fail, noEffects⟩
  | .ok tokenBalance =>
    if tokenBalance = 0 then ⟨some .skip, noEffects⟩
    else
      match resolveAmount tokenBalance account.amount with
      | .nilPanic => ⟨none, noEffects⟩
      | .insufficient => ⟨some .fail, noEffects⟩
      | .amount amountStr =>
        match env.gasCaps with
        | .error _ => ⟨some .fail, ⟨true, none, false, none, false⟩⟩
        | .ok (gasTipCapValue, gasFeeCapValue) =>
          match env.erc20Gas with
          | .error _ => ⟨some .fail, ⟨true, some amountStr, false, none, false⟩⟩
          | .ok gas =>
            let estimatedFee := int64OfUInt64 gas * gasFeeCapValue + gasTipCapValue
            match env.nativeBalance with
            | .error _ => ⟨some .fail, ⟨true, some amountStr, false, none, false⟩⟩
            | .ok nativeBalance =>
              let remainingFee := estimatedFee - nativeBalance
              let f := fundingStep env remainingFee
              if f.proceed then
                ⟨some (tokenStep env), ⟨true, some amountStr, f.built, f.broadcast, true⟩⟩
              else
                ⟨some .fail, ⟨true, some amountStr, f.built, f.broadcast, false⟩⟩

/-- collectLegacy embeds the per-account body of the legacy
`evmCollector.Collect` (unnamed part_003 lines 105-216): no amount
resolution (the configured amount is passed straight to
`CreateERC20Tx`), and funding is gated on a strictly positive native
balance and a non-negative remaining fee. -/
def collectLegacy (env : CollectEnv) (account : SourceAccount) : Outcome :=
  match env.tokenBalance with
  | .error _ => ⟨some .fail, noEffects⟩
  | .ok tokenBalance =>
    if tokenBalance = 0 then ⟨some .skip, noEffects⟩
    else
      match env.gasCaps with
      | .error _ => ⟨some .fail, ⟨true, none, false, none, false⟩⟩
      | .ok (gasTipCapValue, gasFeeCapValue) =>
        match env.erc20Gas with
        | .error _ => ⟨some .fail, ⟨true, some account.amount, false, none, false⟩⟩
        | .ok gas =>
          let estimatedFee := int64OfUInt64 gas * gasFeeCapValue + gasTipCapValue
          match env.nativeBalance with
          | .error _ => ⟨some .fail, ⟨true, some account.amount, false, none, false⟩⟩
          | .ok nativeBalance =>
            let f :=
              if nativeBalance > 0 then
                let remainingFee := estimatedFee - nativeBalance
                if remainingFee ≥ 0 then fundingAttempt env remainingFee
                else (⟨true, false, none⟩ : FundOut)
              else (⟨true, false, none⟩ : FundOut)
            if f.proceed then
              ⟨some (tokenStep env),
                ⟨true, some account.amount, f.built, f.broadcast, true⟩⟩
            else
              ⟨some .fail, ⟨true, some account.amount, f.built, f.broadcast, false⟩⟩

/-- CollectionKey carries the observable per-key inputs of the oldest
`PolygonCollector` variant (collector.go first version): the token
contract address and the configured amount. -/
structure CollectionKey where
  token : String
  amount : String

/-- PolyEnv extends the call-outcome record with the two extra calls the
`PolygonCollector.Collect` loop body makes before the balance check:
key decryption and address derivation. -/
structure PolyEnv extends CollectEnv where
  decryptKey : Except String Unit
  getAddress : Except String Unit

/-- PolyOut is the contribution of one key to `PolygonCollector.Collect`:
either the whole call aborts (`return nil, err`), or a list of appended
result statuses together with the traced effects.  The list can hold two
entries because the zero-balance branch appends `Skip` without a
`continue`. -/
inductive PolyOut
  | abort
  | results (statuses : List Status) (eff : Effects)
deriving Repr

/-- polygonCollectKey embeds the loop body of `PolygonCollector.Collect`
(collector.go lines 74-204): decryption failure aborts the whole call,
address/balance failures append `Fail`, a zero balance appends `Skip`
WITHOUT a `continue` (so the workflow keeps going), `BalanceAt` failure
aborts the whole call, funding is gated on a positive native balance and
non-negative remaining fee, the broadcast error is not classified, and a
found-but-unsuccessful receipt yields `Pending`. -/
def polygonCollectKey (env : PolyEnv) (key : CollectionKey) : PolyOut :=
  match env.decryptKey with
  | .error _ => .abort
  | .ok _ =>
    match env.getAddress with
    | .error _ => .results [.fail] noEffects
    | .ok _ =>
      match env.tokenBalance with
      | .error _ => .results [.fail] noEffects
      | .ok tokenBalance =>
        let skipped : List Status := if tokenBalance = 0 then [.skip] else []
        match env.gasCaps with
        | .error _ => .results (skipped ++ [.fail]) ⟨true, none, false, none, false⟩
        | .ok (gasTipCapValue, gasFeeCapValue) =>
          match env.erc20Gas with
          | .error _ =>
            .results (skipped ++ [.fail]) ⟨true, some key.amount, false, none, false⟩
          | .ok gas =>
            let estimatedFee := int64OfUInt64 gas * gasFeeCapValue + gasTipCapValue
            match env.nativeBalance with
            | .error _ => .abort
            | .ok nativeBalance =>
              let f :=
                if nativeBalance > 0 then
                  let remainingFee := estimatedFee - nativeBalance
                  if remainingFee ≥ 0 then fundingAttempt env.toCollectEnv remainingFee
                  else (⟨true, false, none⟩ : FundOut)
                else (⟨true, false, none⟩ : FundOut)
              if f.proceed then
                match env.erc20Transfer with
                | .error _ =>
                  .results (skipped ++ [.fail])
                    ⟨true, some key.amount, f.built, f.broadcast, true⟩
                | .ok _ =>
                  match verifyTx ⟨true, env.erc20Ticks, env.erc20DoneErr⟩
                      env.erc20TxHash env.erc20ReceiptAt with
                  | .error _ =>
                    .results (skipped ++ [.fail])
                      ⟨true, some key.amount, f.built, f.broadcast, true⟩
                  | .ok false =>
                    .results (skipped ++ [.pending])
                      ⟨true, some key.amount, f.built, f.broadcast, true⟩
                  | .ok true =>
                    .results (skipped ++ [.success])
                      ⟨true, some key.amount, f.built, f.broadcast, true⟩
              else
                .results (skipped ++ [.fail])
                  ⟨true, some key.amount, f.built, f.broadcast, false⟩

theorem verifyTxLoop_all_none (receiptAt : Nat → Option Receipt) (e : CtxErr)
    (h : ∀ j, receiptAt j = none) :
    ∀ fuel i, verifyTxLoop receiptAt e i fuel = .error (.ctxDone e) := by
  intro fuel
  induction fuel with
  | zero => intro i; rw [verifyTxLoop, h i]
  | succ f ih => intro i; rw [verifyTxLoop, h i]; exact ih (i + 1)

theorem verifyTxLoop_finds (receiptAt : Nat → Option Receipt) (e : CtxErr) (r : Receipt) :
    ∀ i k fuel, (∀ j, j < i → receiptAt (k + j) = none) → receiptAt (k + i) = some r →
      i ≤ fuel →
      verifyTxLoop receiptAt e k fuel = (if r.status = 1 then .ok true else .ok false) := by
  intro i
  induction i with
  | zero =>
    intro k fuel _ hr _
    simp only [Nat.add_zero] at hr
    cases fuel with
    | zero =>
      rw [verifyTxLoop, hr]
      by_cases h1 : r.status = 1
      · simp [h1]
      · simp [h1]
    | succ f =>
      rw [verifyTxLoop, hr]
      by_cases h1 : r.status = 1
      · simp [h1]
      · simp [h1]
  | succ n ih =>
    intro k fuel hnone hr hle
    have hk : receiptAt k = none := by
      have := hnone 0 (Nat.succ_pos n)
      simpa using this
    obtain ⟨f, rfl⟩ : ∃ f, fuel = f + 1 := ⟨fuel - 1, by omega⟩
    rw [verifyTxLoop, hk]
    exact ih (k + 1) f
      (fun j hj => by
        have := hnone (j + 1) (by omega)
        simpa [Nat.add_assoc, Nat.add_comm 1 j] using this)
      (by simpa [Nat.add_assoc, Nat.add_comm 1 n] using hr)
      (by omega)

theorem verifyTx_no_receipt (ctx : VerifyCtx) (txHash : String)
    (receiptAt : Nat → Option Receipt) (hd : ctx.hasDeadline = true) (hh : txHash ≠ "")
    (h : ∀ j, receiptAt j = none) :
    verifyTx ctx txHash receiptAt = .error (.ctxDone ctx.doneErr) := by
  rw [verifyTx, hd]
  simp only [Bool.not_true, Bool.false_eq_true, if_false, if_neg hh]
  exact verifyTxLoop_all_none receiptAt ctx.doneErr h ctx.ticksUntilDone 0

theorem verifyTx_receipt (ctx : VerifyCtx) (txHash : String)
    (receiptAt : Nat → Option Receipt) (i : Nat) (r : Receipt)
    (hd : ctx.hasDeadline = true) (hh : txHash ≠ "")
    (hnone : ∀ j, j < i → receiptAt j = none) (hr : receiptAt i = some r)
    (hle : i ≤ ctx.ticksUntilDone) :
    verifyTx ctx txHash receiptAt = (if r.status = 1 then .ok true else .ok false) := by
  rw [verifyTx, hd]
  simp only [Bool.not_true, Bool.false_eq_true, if_false, if_neg hh]
  exact verifyTxLoop_finds receiptAt ctx.doneErr r i 0 ctx.ticksUntilDone
    (fun j hj => by simpa using hnone j hj) (by simpa using hr) hle

theorem fundingAttempt_built (env : CollectEnv) (remainingFee : Int) :
    (fundingAttempt env remainingFee).built = true := by
  rw [fundingAttempt]
  cases env.fundCreate with
  | error e => rfl
  | ok u =>
    cases env.fundTransfer with
    | error e => rfl
    | ok u' =>
      cases verifyTx ⟨true, env.fundTicks, env.fundDoneErr⟩ env.fundTxHash
          env.fundReceiptAt with
      | error e => rfl
      | ok b => cases b <;> rfl

theorem fundingAttempt_broadcast_value (env : CollectEnv) (remainingFee v : Int)
    (h : (fundingAttempt env remainingFee).broadcast = some v) : v = remainingFee := by
  rw [fundingAttempt] at h
  cases hc : env.fundCreate with
  | error e => rw [hc] at h; simp at h
  | ok u =>
    rw [hc] at h
    simp only [goBigIntSetString_bigIntString] at h
    cases ht : env.fundTransfer with
    | error e =>
      rw [ht] at h
      simp at h
      omega
    | ok u' =>
      rw [ht] at h
      cases hv : verifyTx ⟨true, env.fundTicks, env.fundDoneErr⟩ env.fundTxHash
          env.fundReceiptAt with
      | error e => rw [hv] at h; simp at h; omega
      | ok b =>
        rw [hv] at h
        cases b <;> simp at h <;> omega

theorem fundingAttempt_broadcast_of_create_ok (env : CollectEnv) (remainingFee : Int)
    (h : env.fundCreate = .ok ()) :
    (fundingAttempt env remainingFee).broadcast = some remainingFee := by
  rw [fundingAttempt, h]
  simp only [goBigIntSetString_bigIntString]
  cases ht : env.fundTransfer with
  | error e => rfl
  | ok u' =>
    cases hv : verifyTx ⟨true, env.fundTicks, env.fundDoneErr⟩ env.fundTxHash
        env.fundReceiptAt with
    | error e => rfl
    | ok b => cases b <;> rfl

theorem collect_reach (env : CollectEnv) (account : SourceAccount)
    (tb : Int) (s : String) (tip fee : Int) (gas : Nat) (nb : Int)
    (h1 : env.tokenBalance = .ok tb) (h2 : tb ≠ 0)
    (h3 : resolveAmount tb account.amount = .amount s)
    (h4 : env.gasCaps = .ok (tip, fee))
    (h5 : env.erc20Gas = .ok gas)
    (h6 : env.nativeBalance = .ok nb) :
    collect env account =
      (let f := fundingStep env (int64OfUInt64 gas * fee + tip - nb)
       if f.proceed then
         ⟨some (tokenStep env), ⟨true, some s, f.built, f.broadcast, true⟩⟩
       else ⟨some .fail, ⟨true, some s, f.built, f.broadcast, false⟩⟩) := by
  simp [collect, h1, h2, h3, h4, h5, h6]

theorem fundingStep_pos (env : CollectEnv) (remainingFee : Int) (h : remainingFee > 0) :
    fundingStep env remainingFee = fundingAttempt env remainingFee := by
  rw [fundingStep, if_pos h]

theorem fundingStep_nonpos (env : CollectEnv) (remainingFee : Int)
    (h : ¬remainingFee > 0) : fundingStep env remainingFee = ⟨true, false, none⟩ := by
  rw [fundingStep, if_neg h]

theorem collectLegacy_reach (env : CollectEnv) (account : SourceAccount)
    (tb : Int) (tip fee : Int) (gas : Nat) (nb : Int)
    (h1 : env.tokenBalance = .ok tb) (h2 : tb ≠ 0)
    (h4 : env.gasCaps = .ok (tip, fee))
    (h5 : env.erc20Gas = .ok gas)
    (h6 : env.nativeBalance = .ok nb) :
    collectLegacy env account =
      (let f :=
        if nb > 0 then
          if int64OfUInt64 gas * fee + tip - nb ≥ 0 then
            fundingAttempt env (int64OfUInt64 gas * fee + tip - nb)
          else (⟨true, false, none⟩ : FundOut)
        else (⟨true, false, none⟩ : FundOut)
       if f.proceed then
         ⟨some (tokenStep env), ⟨true, some account.amount, f.built, f.broadcast, true⟩⟩
       else ⟨some .fail, ⟨true, some account.amount, f.built, f.broadcast, false⟩⟩) := by
  simp [collectLegacy, h1, h2, h4, h5, h6]

theorem tokenStep_no_receipt (env : CollectEnv)
    (ht : env.erc20Transfer = .ok ()) (hh : env.erc20TxHash ≠ "")
    (hr : ∀ j, env.erc20ReceiptAt j = none) : tokenStep env = .fail := by
  rw [tokenStep, ht,
    verifyTx_no_receipt ⟨true, env.erc20Ticks, env.erc20DoneErr⟩ env.erc20TxHash
      env.erc20ReceiptAt rfl hh hr]

theorem tokenStep_reverted (env : CollectEnv) (r : Receipt)
    (ht : env.erc20Transfer = .ok ()) (hh : env.erc20TxHash ≠ "")
    (hr : env.erc20ReceiptAt 0 = some r) (hs : r.status ≠ 1) :
    tokenStep env = .pending := by
  rw [tokenStep, ht,
    verifyTx_receipt ⟨true, env.erc20Ticks, env.erc20DoneErr⟩ env.erc20TxHash
      env.erc20ReceiptAt 0 r rfl hh (fun j hj => absurd hj (Nat.not_lt_zero j)) hr
      (Nat.zero_le _), if_neg hs]

/-- C4: for every error returned when broadcasting the token transfer,
`evmCollector.collect` classifies the outcome by exact equality of the
error message: "nonce too low" yields `Skip`; "already known" or
"replacement transaction underpriced" yields `Pending`; any other
message yields `Fail`. -/
theorem C4_broadcast_error_classification
    (env : CollectEnv) (account : SourceAccount)
    (tb : Int) (s : String) (tip fee : Int) (gas : Nat) (nb : Int) (msg : String)
    (h1 : env.tokenBalance = .ok tb) (h2 : tb ≠ 0)
    (h3 : resolveAmount tb account.amount = .amount s)
    (h4 : env.gasCaps = .ok (tip, fee))
    (h5 : env.erc20Gas = .ok gas)
    (h6 : env.nativeBalance = .ok nb)
    (h7 : (fundingStep env (int64OfUInt64 gas * fee + tip - nb)).proceed = true)
    (h8 : env.erc20Transfer = .error msg) :
    (collect env account).status =
      some (if msg = "nonce too low" then Status.skip
        else if msg = "already known" ∨ msg = "replacement transaction underpriced"
          then Status.pending
        else Status.fail) := by
  rw [collect_reach env account tb s tip fee gas nb h1 h2 h3 h4 h5 h6]
  simp only [h7, if_true]
  rw [tokenStep, h8]
  simp only [classifyBroadcastError, nonceTooLow, alreadyKnown,
    replacementTransactionUnderpriced]
  by_cases m1 : msg = "nonce too low"
  · simp [m1]
  · by_cases m2 : msg = "already known"
    · simp [m1, m2]
    · by_cases m3 : msg = "replacement transaction underpriced"
      · simp [m1, m2, m3]
      · simp [m1, m2, m3]

/-- envC4w instantiates the collect environment at the token-broadcast
step with the error message "already known". -/
def envC4w : CollectEnv :=
  ⟨.ok 5, .ok (0, 0), .ok 1, .ok 5, .ok (), .ok (), "0xf", 1, .deadlineExceeded,
    fun _ => some ⟨1⟩, .error "already known", "0xe", 1, .deadlineExceeded,
    fun _ => some ⟨1⟩⟩

theorem C4_witness : (collect envC4w ⟨"T", ""⟩).status = some Status.pending := by
  rw [C4_broadcast_error_classification envC4w ⟨"T", ""⟩ 5 (bigIntString 5) 0 0 1 5
    "already known" rfl (by decide) rfl rfl rfl rfl rfl rfl]
  rfl

/-- C10: a non-empty configured Amount that is not a valid base-10
integer string, with a nonzero token balance, makes
`evmCollector.collect` dereference the nil `big.Int` left by the ignored
failed parse: the run panics (status `none`) instead of producing any
`Result`. -/
theorem C10_invalid_amount_panics (env : CollectEnv) (account : SourceAccount) (tb : Int)
    (h1 : env.tokenBalance = .ok tb) (h2 : tb ≠ 0)
    (h3 : account.amount ≠ "") (h4 : goBigIntSetString? account.amount = none) :
    (collect env account).status = none := by
  have hres : resolveAmount tb account.amount = .nilPanic := by
    rw [resolveAmount, if_pos h3, h4]
  simp [collect, h1, h2, hres]

/-- envC10w is an environment whose token balance query returns 1; every
later call is irrelevant because the run panics first. -/
def envC10w : CollectEnv :=
  ⟨.ok 1, .ok (0, 0), .ok 1, .ok 0, .ok (), .ok (), "0xf", 1, .deadlineExceeded,
    fun _ => none, .ok (), "0xe", 1, .deadlineExceeded, fun _ => none⟩

theorem C10_witness : (collect envC10w ⟨"T", "abc"⟩).status = none :=
  C10_invalid_amount_panics envC10w ⟨"T", "abc"⟩ 1 rfl (by decide) (by decide) rfl

/-- C7: a non-empty configured Amount exceeding the queried token balance
makes `evmCollector.collect` fail with no effects (no gas quote, no
build, no broadcast); an empty Amount resolves to the entire queried
balance: the amount string handed to `CreateERC20Tx` is the balance
rendered by `big.Int.String`, and it parses back to exactly the
balance. -/
theorem C7_amount_resolution :
    (∀ (env : CollectEnv) (account : SourceAccount) (tb a : Int),
      env.tokenBalance = .ok tb → tb ≠ 0 → account.amount ≠ "" →
      goBigIntSetString? account.amount = some a → tb < a →
      (collect env account).status = some Status.fail ∧
        (collect env account).effects = noEffects) ∧
    (∀ (env : CollectEnv) (account : SourceAccount) (tb tip fee : Int),
      env.tokenBalance = .ok tb → tb ≠ 0 → account.amount = "" →
      env.gasCaps = .ok (tip, fee) →
      (collect env account).effects.erc20AmountParam = some (bigIntString tb) ∧
        goBigIntSetString? (bigIntString tb) = some tb) := by
  constructor
  · intro env account tb a h1 h2 h3 h4 h5
    have hres : resolveAmount tb account.amount = .insufficient := by
      rw [resolveAmount, if_pos h3, h4]
      simp [h5]
    constructor
    · simp [collect, h1, h2, hres]
    · simp [collect, h1, h2, hres]
  · intro env account tb tip fee h1 h2 h3 h4
    have hres : resolveAmount tb account.amount = .amount (bigIntString tb) := by
      rw [h3, resolveAmount]
      simp
    refine ⟨?_, goBigIntSetString_bigIntString tb⟩
    cases h5 : env.erc20Gas with
    | error e => simp [collect, h1, h2, hres, h4, h5]
    | ok gas =>
      cases h6 : env.nativeBalance with
      | error e => simp [collect, h1, h2, hres, h4, h5, h6]
      | ok nb =>
        by_cases h7 : (fundingStep env (int64OfUInt64 gas * fee + tip - nb)).proceed = true
        · simp [collect, h1, h2, hres, h4, h5, h6, h7]
        · simp [collect, h1, h2, hres, h4, h5, h6, h7]

/-- envC7w reaches the insufficient-balance failure: token balance 5
against a configured amount of 7. -/
def envC7w : CollectEnv :=
  ⟨.ok 5, .error "oracle down", .error "estimate failed", .error "balance failed",
    .ok (), .ok (), "0xf", 0, .deadlineExceeded, fun _ => none, .ok (), "0xe", 0,
    .deadlineExceeded, fun _ => none⟩

/-- envC7w2 reaches the ERC-20 build with an empty configured amount and
token balance 5. -/
def envC7w2 : CollectEnv :=
  ⟨.ok 5, .ok (0, 0), .error "estimate failed", .error "balance failed",
    .ok (), .ok (), "0xf", 0, .deadlineExceeded, fun _ => none, .ok (), "0xe", 0,
    .deadlineExceeded, fun _ => none⟩

theorem C7_witness :
    ((collect envC7w ⟨"T", "7"⟩).status = some Status.fail ∧
      (collect envC7w ⟨"T", "7"⟩).effects = noEffects) ∧
    ((collect envC7w2 ⟨"T", ""⟩).effects.erc20AmountParam = some (bigIntString 5) ∧
      goBigIntSetString? (bigIntString 5) = some 5) :=
  ⟨C7_amount_resolution.1 envC7w ⟨"T", "7"⟩ 5 7 rfl (by decide) (by decide) rfl
      (by decide),
    C7_amount_resolution.2 envC7w2 ⟨"T", ""⟩ 5 0 0 rfl (by decide) rfl rfl⟩

/-- envC1x reaches the token-transfer confirmation with a successful
broadcast, no receipt ever found, and the two-minute deadline elapsing
(ctx.Err() = DeadlineExceeded). -/
def envC1x : CollectEnv :=
  ⟨.ok 1, .ok (0, 0), .ok 1, .ok 0, .ok (), .ok (), "0xf", 1, .deadlineExceeded,
    fun _ => none, .ok (), "0xe", 12, .deadlineExceeded, fun _ => none⟩

/-- C1, counterexample: with the token transfer broadcast successfully
and no receipt found before the deadline elapses, the Result status is
`Fail` and not `Pending` — `VerifyTx` returns `ctx.Err()` on deadline
expiry and `collect` routes any verification error to `Fail`. -/
theorem C1_counterexample :
    (collect envC1x ⟨"T", ""⟩).status = some Status.fail ∧
      (collect envC1x ⟨"T", ""⟩).status ≠ some Status.pending := by
  constructor <;> decide

/-- C1, amended: for every source account whose token transfer is
broadcast successfully, if no receipt is found before the two-minute
confirmation deadline elapses, `VerifyTx` returns the context's
deadline-exceeded error and the account's Result has Status `Fail`,
never `Pending`. -/
theorem C1_amended (env : CollectEnv) (account : SourceAccount)
    (tb : Int) (s : String) (tip fee : Int) (gas : Nat) (nb : Int)
    (h1 : env.tokenBalance = .ok tb) (h2 : tb ≠ 0)
    (h3 : resolveAmount tb account.amount = .amount s)
    (h4 : env.gasCaps = .ok (tip, fee))
    (h5 : env.erc20Gas = .ok gas)
    (h6 : env.nativeBalance = .ok nb)
    (h7 : (fundingStep env (int64OfUInt64 gas * fee + tip - nb)).proceed = true)
    (h8 : env.erc20Transfer = .ok ())
    (h9 : env.erc20TxHash ≠ "")
    (h10 : ∀ j, env.erc20ReceiptAt j = none)
    (_h11 : env.erc20DoneErr = .deadlineExceeded) :
    (collect env account).status = some Status.fail := by
  rw [collect_reach env account tb s tip fee gas nb h1 h2 h3 h4 h5 h6]
  simp only [h7, if_true]
  rw [tokenStep_no_receipt env h8 h9 h10]

theorem C1_witness : (collect envC1x ⟨"T", ""⟩).status = some Status.fail :=
  C1_amended envC1x ⟨"T", ""⟩ 1 (bigIntString 1) 0 0 1 0 rfl (by decide) rfl rfl rfl
    rfl rfl rfl (by decide) (fun _ => rfl) rfl

theorem fundingAttempt_reverted (env : CollectEnv) (remainingFee : Int) (r : Receipt)
    (hc : env.fundCreate = .ok ()) (ht : env.fundTransfer = .ok ())
    (hh : env.fundTxHash ≠ "") (hr : env.fundReceiptAt 0 = some r)
    (hs : r.status ≠ 1) :
    (fundingAttempt env remainingFee).proceed = false := by
  rw [fundingAttempt, hc]
  simp only [ht]
  rw [verifyTx_receipt ⟨true, env.fundTicks, env.fundDoneErr⟩ env.fundTxHash
    env.fundReceiptAt 0 r rfl hh (fun j hj => absurd hj (Nat.not_lt_zero j)) hr
    (Nat.zero_le _), if_neg hs]

/-- envC2x reaches the token-transfer confirmation with a receipt whose
status is 0 (reverted). -/
def envC2x : CollectEnv :=
  ⟨.ok 1, .ok (0, 0), .ok 1, .ok 0, .ok (), .ok (), "0xf", 1, .deadlineExceeded,
    fun _ => none, .ok (), "0xe", 12, .deadlineExceeded, fun _ => some ⟨0⟩⟩

/-- C2, counterexample: a token transfer confirmed with a receipt whose
status reports failure yields `Pending`, not `Fail` — `VerifyTx` reports
a reverted transaction as `(false, nil)` and `collect` maps a not-mined
verdict at the transfer step to `Pending`. -/
theorem C2_counterexample :
    (collect envC2x ⟨"T", ""⟩).status = some Status.pending ∧
      (collect envC2x ⟨"T", ""⟩).status ≠ some Status.fail := by
  constructor <;> decide

/-- C2, amended: a receipt reporting success=false yields `Fail` when it
belongs to the funding transaction, but yields `Pending` when it belongs
to the token transfer. -/
theorem C2_amended :
    (∀ (env : CollectEnv) (account : SourceAccount) (tb : Int) (s : String)
      (tip fee : Int) (gas : Nat) (nb : Int) (r : Receipt),
      env.tokenBalance = .ok tb → tb ≠ 0 →
      resolveAmount tb account.amount = .amount s →
      env.gasCaps = .ok (tip, fee) → env.erc20Gas = .ok gas →
      env.nativeBalance = .ok nb →
      int64OfUInt64 gas * fee + tip - nb > 0 →
      env.fundCreate = .ok () → env.fundTransfer = .ok () →
      env.fundTxHash ≠ "" → env.fundReceiptAt 0 = some r → r.status ≠ 1 →
      (collect env account).status = some Status.fail) ∧
    (∀ (env : CollectEnv) (account : SourceAccount) (tb : Int) (s : String)
      (tip fee : Int) (gas : Nat) (nb : Int) (r : Receipt),
      env.tokenBalance = .ok tb → tb ≠ 0 →
      resolveAmount tb account.amount = .amount s →
      env.gasCaps = .ok (tip, fee) → env.erc20Gas = .ok gas →
      env.nativeBalance = .ok nb →
      (fundingStep env (int64OfUInt64 gas * fee + tip - nb)).proceed = true →
      env.erc20Transfer = .ok () → env.erc20TxHash ≠ "" →
      env.erc20ReceiptAt 0 = some r → r.status ≠ 1 →
      (collect env account).status = some Status.pending) := by
  constructor
  · intro env account tb s tip fee gas nb r h1 h2 h3 h4 h5 h6 hsf hc ht hh hr hs
    rw [collect_reach env account tb s tip fee gas nb h1 h2 h3 h4 h5 h6]
    have hp : (fundingStep env (int64OfUInt64 gas * fee + tip - nb)).proceed = false := by
      rw [fundingStep_pos env _ hsf]
      exact fundingAttempt_reverted env _ r hc ht hh hr hs
    simp [hp]
  · intro env account tb s tip fee gas nb r h1 h2 h3 h4 h5 h6 h7 ht hh hr hs
    rw [collect_reach env account tb s tip fee gas nb h1 h2 h3 h4 h5 h6]
    simp only [h7, if_true]
    rw [tokenStep_reverted env r ht hh hr hs]

/-- envC2w1 reaches the funding confirmation with a positive shortfall
and a reverted funding receipt. -/
def envC2w1 : CollectEnv :=
  ⟨.ok 1, .ok (5, 0), .ok 1, .ok 0, .ok (), .ok (), "0xf", 1, .deadlineExceeded,
    fun _ => some ⟨0⟩, .ok (), "0xe", 12, .deadlineExceeded, fun _ => some ⟨1⟩⟩

theorem C2_witness :
    (collect envC2w1 ⟨"T", ""⟩).status = some Status.fail ∧
      (collect envC2x ⟨"T", ""⟩).status = some Status.pending :=
  ⟨C2_amended.1 envC2w1 ⟨"T", ""⟩ 1 (bigIntString 1) 5 0 1 0 ⟨0⟩ rfl (by decide) rfl
      rfl rfl rfl (by decide) rfl rfl (by decide) rfl (by decide),
    C2_amended.2 envC2x ⟨"T", ""⟩ 1 (bigIntString 1) 0 0 1 0 ⟨0⟩ rfl (by decide) rfl
      rfl rfl rfl rfl rfl (by decide) rfl (by decide)⟩

/-- C3, counterexample: with a deadline-carrying context, the deadline
elapsing with no receipt found makes `VerifyTx` return the propagated
`context.DeadlineExceeded` error, not the errorless "not mined"
`(false, nil)` the claim states. -/
theorem C3_counterexample :
    verifyTx ⟨true, 2, .deadlineExceeded⟩ "0xabc" (fun _ => none) =
        .error (.ctxDone .deadlineExceeded) ∧
      verifyTx ⟨true, 2, .deadlineExceeded⟩ "0xabc" (fun _ => none) ≠
        .ok false := by
  constructor
  · rfl
  · intro h
    have h2 : (Except.error (VerifyErr.ctxDone CtxErr.deadlineExceeded) :
        Except VerifyErr Bool) = .ok false := by
      rw [← h]
      rfl
    exact Except.noConfusion h2

/-- C3, amended: for every call to `VerifyTx` with a context carrying a
deadline and a non-empty hash: a receipt whose status indicates success
returns mined=true; a receipt indicating revert returns mined=false with
no error; and if no receipt is ever found, the context's error —
deadline-exceeded when the deadline elapses, or the cancellation error —
is returned together with mined=false. -/
theorem C3_amended (ctx : VerifyCtx) (txHash : String)
    (receiptAt : Nat → Option Receipt)
    (hd : ctx.hasDeadline = true) (hh : txHash ≠ "") :
    (∀ (i : Nat) (r : Receipt), (∀ j, j < i → receiptAt j = none) →
        receiptAt i = some r → i ≤ ctx.ticksUntilDone → r.status = 1 →
        verifyTx ctx txHash receiptAt = .ok true) ∧
    (∀ (i : Nat) (r : Receipt), (∀ j, j < i → receiptAt j = none) →
        receiptAt i = some r → i ≤ ctx.ticksUntilDone → r.status ≠ 1 →
        verifyTx ctx txHash receiptAt = .ok false) ∧
    ((∀ j, receiptAt j = none) →
        verifyTx ctx txHash receiptAt = .error (.ctxDone ctx.doneErr)) := by
  refine ⟨?_, ?_, ?_⟩
  · intro i r hnone hr hle hs
    rw [verifyTx_receipt ctx txHash receiptAt i r hd hh hnone hr hle, if_pos hs]
  · intro i r hnone hr hle hs
    rw [verifyTx_receipt ctx txHash receiptAt i r hd hh hnone hr hle, if_neg hs]
  · exact verifyTx_no_receipt ctx txHash receiptAt hd hh

theorem C3_witness :
    verifyTx ⟨true, 3, .deadlineExceeded⟩ "0xa" (fun _ => some ⟨1⟩) = .ok true ∧
      verifyTx ⟨true, 3, .canceled⟩ "0xa" (fun _ => none) =
        .error (.ctxDone .canceled) :=
  ⟨(C3_amended ⟨true, 3, .deadlineExceeded⟩ "0xa" (fun _ => some ⟨1⟩) rfl
      (by decide)).1 0 ⟨1⟩ (fun j hj => absurd hj (Nat.not_lt_zero j)) rfl
      (Nat.zero_le _) rfl,
    (C3_amended ⟨true, 3, .canceled⟩ "0xa" (fun _ => none) rfl (by decide)).2.2
      (fun _ => rfl)⟩

theorem collect_funding_effects (env : CollectEnv) (account : SourceAccount)
    (tb : Int) (s : String) (tip fee : Int) (gas : Nat) (nb : Int)
    (h1 : env.tokenBalance = .ok tb) (h2 : tb ≠ 0)
    (h3 : resolveAmount tb account.amount = .amount s)
    (h4 : env.gasCaps = .ok (tip, fee))
    (h5 : env.erc20Gas = .ok gas)
    (h6 : env.nativeBalance = .ok nb) :
    (collect env account).effects.fundingBuilt =
        (fundingStep env (int64OfUInt64 gas * fee + tip - nb)).built ∧
      (collect env account).effects.fundingBroadcast =
        (fundingStep env (int64OfUInt64 gas * fee + tip - nb)).broadcast ∧
      (collect env account).effects.tokenBroadcast =
        (fundingStep env (int64OfUInt64 gas * fee + tip - nb)).proceed := by
  rw [collect_reach env account tb s tip fee gas nb h1 h2 h3 h4 h5 h6]
  cases hp : (fundingStep env (int64OfUInt64 gas * fee + tip - nb)).proceed <;>
    simp [hp]

theorem collectLegacy_funding_effects (env : CollectEnv) (account : SourceAccount)
    (tb : Int) (tip fee : Int) (gas : Nat) (nb : Int)
    (h1 : env.tokenBalance = .ok tb) (h2 : tb ≠ 0)
    (h4 : env.gasCaps = .ok (tip, fee))
    (h5 : env.erc20Gas = .ok gas)
    (h6 : env.nativeBalance = .ok nb) :
    (collectLegacy env account).effects.fundingBuilt =
        (if nb > 0 then
          if int64OfUInt64 gas * fee + tip - nb ≥ 0 then
            fundingAttempt env (int64OfUInt64 gas * fee + tip - nb)
          else (⟨true, false, none⟩ : FundOut)
        else (⟨true, false, none⟩ : FundOut)).built ∧
      (collectLegacy env account).effects.fundingBroadcast =
        (if nb > 0 then
          if int64OfUInt64 gas * fee + tip - nb ≥ 0 then
            fundingAttempt env (int64OfUInt64 gas * fee + tip - nb)
          else (⟨true, false, none⟩ : FundOut)
        else (⟨true, false, none⟩ : FundOut)).broadcast ∧
      (collectLegacy env account).effects.tokenBroadcast =
        (if nb > 0 then
          if int64OfUInt64 gas * fee + tip - nb ≥ 0 then
            fundingAttempt env (int64OfUInt64 gas * fee + tip - nb)
          else (⟨true, false, none⟩ : FundOut)
        else (⟨true, false, none⟩ : FundOut)).proceed := by
  rw [collectLegacy_reach env account tb tip fee gas nb h1 h2 h4 h5 h6]
  set F := (if nb > 0 then
      if int64OfUInt64 gas * fee + tip - nb ≥ 0 then
        fundingAttempt env (int64OfUInt64 gas * fee + tip - nb)
      else (⟨true, false, none⟩ : FundOut)
    else (⟨true, false, none⟩ : FundOut)) with hF
  cases hp : F.proceed <;> simp [hp]

/-- envC5x drives the legacy collector to a shortfall of exactly 0 with a
positive native balance: estimatedFee = 1 * 5 + 0 = 5 and native
balance 5. -/
def envC5x : CollectEnv :=
  ⟨.ok 1, .ok (0, 5), .ok 1, .ok 5, .ok (), .ok (), "0xf", 1, .deadlineExceeded,
    fun _ => some ⟨1⟩, .ok (), "0xe", 1, .deadlineExceeded, fun _ => some ⟨1⟩⟩

/-- C5, counterexample: in the legacy `evmCollector.Collect` (part_003),
a shortfall of exactly 0 — which per the claim must produce no funding
transaction — is funded: a zero-value funding transaction is broadcast. -/
theorem C5_counterexample :
    int64OfUInt64 1 * 5 + 0 - 5 ≤ 0 ∧
      (collectLegacy envC5x ⟨"T", "10"⟩).effects.fundingBroadcast = some 0 := by
  constructor <;> decide

/-- C5, amended: in the current `evmCollector.collect`, a funding
transaction is built iff `estimatedFee - nativeBalance > 0`, any funding
value broadcast equals that shortfall, a positive shortfall with a
successful build broadcasts exactly the shortfall, and a non-positive
shortfall builds and broadcasts nothing while still submitting the token
transfer.  The legacy `evmCollector.Collect` (part_003) instead gates
funding on `nativeBalance > 0` and `shortfall ≥ 0`: with a non-positive
native balance nothing is funded (even for a positive shortfall), while
a positive balance with a non-negative shortfall — including exactly
zero — broadcasts a funding transaction of that value. -/
theorem C5_amended :
    (∀ (env : CollectEnv) (account : SourceAccount) (tb : Int) (s : String)
      (tip fee : Int) (gas : Nat) (nb : Int),
      env.tokenBalance = .ok tb → tb ≠ 0 →
      resolveAmount tb account.amount = .amount s →
      env.gasCaps = .ok (tip, fee) → env.erc20Gas = .ok gas →
      env.nativeBalance = .ok nb →
      (((collect env account).effects.fundingBuilt = true ↔
          int64OfUInt64 gas * fee + tip - nb > 0) ∧
        (∀ v, (collect env account).effects.fundingBroadcast = some v →
          v = int64OfUInt64 gas * fee + tip - nb) ∧
        (int64OfUInt64 gas * fee + tip - nb > 0 → env.fundCreate = .ok () →
          (collect env account).effects.fundingBroadcast =
            some (int64OfUInt64 gas * fee + tip - nb)) ∧
        (int64OfUInt64 gas * fee + tip - nb ≤ 0 →
          (collect env account).effects.fundingBuilt = false ∧
            (collect env account).effects.fundingBroadcast = none ∧
            (collect env account).effects.tokenBroadcast = true))) ∧
    (∀ (env : CollectEnv) (account : SourceAccount) (tb : Int)
      (tip fee : Int) (gas : Nat) (nb : Int),
      env.tokenBalance = .ok tb → tb ≠ 0 →
      env.gasCaps = .ok (tip, fee) → env.erc20Gas = .ok gas →
      env.nativeBalance = .ok nb →
      ((nb ≤ 0 →
          (collectLegacy env account).effects.fundingBuilt = false ∧
            (collectLegacy env account).effects.fundingBroadcast = none ∧
            (collectLegacy env account).effects.tokenBroadcast = true) ∧
        (nb > 0 → int64OfUInt64 gas * fee + tip - nb ≥ 0 →
          env.fundCreate = .ok () →
          (collectLegacy env account).effects.fundingBroadcast =
            some (int64OfUInt64 gas * fee + tip - nb)))) := by
  constructor
  · intro env account tb s tip fee gas nb h1 h2 h3 h4 h5 h6
    obtain ⟨e1, e2, e3⟩ :=
      collect_funding_effects env account tb s tip fee gas nb h1 h2 h3 h4 h5 h6
    refine ⟨?_, ?_, ?_, ?_⟩
    · rw [e1]
      by_cases h : int64OfUInt64 gas * fee + tip - nb > 0
      · rw [fundingStep_pos env _ h, fundingAttempt_built env _]
        simp [h]
      · rw [fundingStep_nonpos env _ h]
        simp [h]
    · intro v hv
      rw [e2] at hv
      by_cases h : int64OfUInt64 gas * fee + tip - nb > 0
      · rw [fundingStep_pos env _ h] at hv
        exact fundingAttempt_broadcast_value env _ v hv
      · rw [fundingStep_nonpos env _ h] at hv
        exact absurd hv (by simp)
    · intro h hc
      rw [e2, fundingStep_pos env _ h]
      exact fundingAttempt_broadcast_of_create_ok env _ hc
    · intro h
      rw [e1, e2, e3, fundingStep_nonpos env _ (by omega)]
      exact ⟨rfl, rfl, rfl⟩
  · intro env account tb tip fee gas nb h1 h2 h4 h5 h6
    obtain ⟨e1, e2, e3⟩ :=
      collectLegacy_funding_effects env account tb tip fee gas nb h1 h2 h4 h5 h6
    constructor
    · intro hnb
      rw [e1, e2, e3, if_neg (by omega)]
      exact ⟨rfl, rfl, rfl⟩
    · intro hnb hsf hc
      rw [e2, if_pos hnb, if_pos hsf]
      exact fundingAttempt_broadcast_of_create_ok env _ hc

/-- envC5w drives the current collector to a non-positive shortfall:
estimatedFee = 1 * 0 + 0 = 0 against native balance 3. -/
def envC5w : CollectEnv :=
  ⟨.ok 1, .ok (0, 0), .ok 1, .ok 3, .ok (), .ok (), "0xf", 1, .deadlineExceeded,
    fun _ => some ⟨1⟩, .ok (), "0xe", 1, .deadlineExceeded, fun _ => some ⟨1⟩⟩

theorem C5_witness :
    ((collect envC5w ⟨"T", ""⟩).effects.fundingBuilt = false ∧
      (collect envC5w ⟨"T", ""⟩).effects.fundingBroadcast = none ∧
      (collect envC5w ⟨"T", ""⟩).effects.tokenBroadcast = true) ∧
    (collectLegacy envC5x ⟨"T", "10"⟩).effects.fundingBroadcast =
      some (int64OfUInt64 1 * 5 + 0 - 5) :=
  ⟨(C5_amended.1 envC5w ⟨"T", ""⟩ 1 (bigIntString 1) 0 0 1 3 rfl (by decide) rfl rfl
      rfl rfl).2.2.2 (by decide),
    (C5_amended.2 envC5x ⟨"T", "10"⟩ 1 0 5 1 5 rfl (by decide) rfl rfl rfl).2
      (by decide) (by decide) rfl⟩

/-- envC6x gives the oldest `PolygonCollector.Collect` a key with zero
token balance while every other call succeeds (native balance 5, receipt
status 1). -/
def envC6x : PolyEnv :=
  ⟨⟨.ok 0, .ok (0, 0), .ok 1, .ok 5, .ok (), .ok (), "0xf", 1, .deadlineExceeded,
    fun _ => some ⟨1⟩, .ok (), "0xe", 1, .deadlineExceeded, fun _ => some ⟨1⟩⟩,
    .ok (), .ok ()⟩

/-- C6: the `PolygonCollector.Collect` loop body appends `Skip` for a
zero token balance but, lacking a `continue`, keeps going: it queries
the gas oracle, broadcasts the token transfer, and appends a second
result for the same key — contradicting the claim that a zero-balance
account yields `Skip` with no gas quote and no write transactions. -/
theorem C6_zero_balance_polygon_broadcasts :
    polygonCollectKey envC6x ⟨"T", "10"⟩ =
      .results [Status.skip, Status.success] ⟨true, some "10", false, none, true⟩ := by
  rfl

theorem foldl_mul_add_replicate_zero (k : Nat) :
    List.foldl (fun a b => 256 * a + b) 0 (List.replicate k 0) = 0 := by
  induction k with
  | zero => rfl
  | succ m ih => simpa [List.replicate_succ] using ih

theorem beBytesToNat_replicate_append (k : Nat) (l : List Nat) :
    beBytesToNat (List.replicate k 0 ++ l) = beBytesToNat l := by
  rw [beBytesToNat, beBytesToNat, List.foldl_append, foldl_mul_add_replicate_zero]

theorem beBytesToNat_bigIntBytes (n : Nat) : beBytesToNat (bigIntBytes n) = n := by
  rw [beBytesToNat, bigIntBytes, natDigitsLE_eq_digits 256 n (by norm_num),
    List.foldl_reverse]
  have : (fun (b : Nat) (a : Nat) => 256 * a + b) =
      (fun (d : Nat) (a : Nat) => 256 * a + d) := rfl
  rw [this, foldr_mul_add_eq_ofDigits, Nat.ofDigits_digits]

theorem pow256_32 : (256 : Nat) ^ 32 = 2 ^ 256 := by decide

theorem bigIntBytes_length_le (n : Nat) (h : n < 2 ^ 256) :
    (bigIntBytes n).length ≤ 32 := by
  rw [bigIntBytes, List.length_reverse, natDigitsLE_eq_digits 256 n (by norm_num)]
  by_cases h0 : n = 0
  · simp [h0]
  · rw [Nat.digits_len 256 n (by norm_num) h0]
    have : Nat.log 256 n < 32 :=
      Nat.log_lt_of_lt_pow h0 (by rw [pow256_32]; exact h)
    omega

theorem leftPadBytes_eq (slice : List Nat) (l : Nat) (h : slice.length ≤ l) :
    leftPadBytes slice l = List.replicate (l - slice.length) 0 ++ slice := by
  rw [leftPadBytes]
  by_cases hl : l ≤ slice.length
  · have : l = slice.length := Nat.le_antisymm hl h
    rw [if_pos hl, this, Nat.sub_self]
    rfl
  · rw [if_neg hl]

theorem leftPadBytes_length (slice : List Nat) (l : Nat) (h : slice.length ≤ l) :
    (leftPadBytes slice l).length = l := by
  rw [leftPadBytes_eq slice l h, List.length_append, List.length_replicate]
  omega

/-- C8: for every 20-byte recipient address and every amount string that
parses as a non-negative integer below 2^256, the ERC-20 payload builder
produces exactly 68 bytes — the first 4 bytes of the Keccak-256 hash of
the ASCII signature "transfer(address,uint256)" (the concrete selector
a9:05:9c:bb), then the 32-byte left-padded recipient address, then the
32-byte left-padded big-endian amount — and decoding that 4+32+32
layout recovers the original recipient and amount exactly. -/
theorem C8_transfer_data_roundtrip (addr : List Nat) (s : String) (n : Nat)
    (ha : addr.length = 20) (hn : n < 2 ^ 256)
    (hs : goBigIntSetString? s = some ((n : Nat) : Int)) :
    (getTransactionData addr s).length = 68 ∧
      (getTransactionData addr s).take 4 = (keccak256 transferFnSignature).take 4 ∧
      (keccak256 transferFnSignature).take 4 = [0xa9, 0x05, 0x9c, 0xbb] ∧
      ((getTransactionData addr s).drop 4).take 32 =
        List.replicate 12 0 ++ addr ∧
      (((getTransactionData addr s).drop 4).take 32).drop 12 = addr ∧
      ((getTransactionData addr s).drop 4).drop 32 =
        leftPadBytes (bigIntBytes n) 32 ∧
      beBytesToNat (((getTransactionData addr s).drop 4).drop 32) = n := by
  have hamt : ((n : Nat) : Int).natAbs = n := Int.natAbs_ofNat n
  have hdata : getTransactionData addr s =
      (keccak256 transferFnSignature).take 4 ++
        (leftPadBytes addr 32 ++ leftPadBytes (bigIntBytes n) 32) := by
    rw [getTransactionData, hs, List.append_assoc, hamt]
  have hmlen : ((keccak256 transferFnSignature).take 4).length = 4 := by
    rw [keccak_selector]
    rfl
  have haddrlen : (leftPadBytes addr 32).length = 32 :=
    leftPadBytes_length addr 32 (by omega)
  have hamtlen : (leftPadBytes (bigIntBytes n) 32).length = 32 :=
    leftPadBytes_length (bigIntBytes n) 32 (bigIntBytes_length_le n hn)
  have hdrop4 : (getTransactionData addr s).drop 4 =
      leftPadBytes addr 32 ++ leftPadBytes (bigIntBytes n) 32 := by
    rw [hdata, List.drop_left' hmlen]
  have hpadaddr : leftPadBytes addr 32 = List.replicate 12 0 ++ addr := by
    rw [leftPadBytes_eq addr 32 (by omega), ha]
  refine ⟨?_, ?_, keccak_selector, ?_, ?_, ?_, ?_⟩
  · rw [hdata, List.length_append, List.length_append, hmlen, haddrlen, hamtlen]
  · rw [hdata, List.take_left' hmlen]
  · rw [hdrop4, List.take_left' haddrlen, hpadaddr]
  · rw [hdrop4, List.take_left' haddrlen, hpadaddr]
    rw [List.drop_left' (by rw [List.length_replicate])]
  · rw [hdrop4, List.drop_left' haddrlen]
  · rw [hdrop4, List.drop_left' haddrlen,
      leftPadBytes_eq (bigIntBytes n) 32 (bigIntBytes_length_le n hn),
      beBytesToNat_replicate_append, beBytesToNat_bigIntBytes]

theorem C8_witness :
    (getTransactionData (List.replicate 20 7) "1000").length = 68 ∧
      (getTransactionData (List.replicate 20 7) "1000").take 4 =
        (keccak256 transferFnSignature).take 4 ∧
      (keccak256 transferFnSignature).take 4 = [0xa9, 0x05, 0x9c, 0xbb] ∧
      ((getTransactionData (List.replicate 20 7) "1000").drop 4).take 32 =
        List.replicate 12 0 ++ List.replicate 20 7 ∧
      (((getTransactionData (List.replicate 20 7) "1000").drop 4).take 32).drop 12 =
        List.replicate 20 7 ∧
      ((getTransactionData (List.replicate 20 7) "1000").drop 4).drop 32 =
        leftPadBytes (bigIntBytes 1000) 32 ∧
      beBytesToNat
        (((getTransactionData (List.replicate 20 7) "1000").drop 4).drop 32) = 1000 :=
  C8_transfer_data_roundtrip (List.replicate 20 7) "1000" 1000 (by decide)
    (by decide) rfl
